import Mathlib

/-!
Verification of the atreugo request-dispatch layer (src/router.go,
src/atreugo.go) through a shallow embedding.

Conventions of the embedding:
* Go's `error` values become `Option String` (`none` is the nil error,
  `some msg` a non-nil error whose `Error()` message is `msg`).
* Stateful code becomes explicit state passing over `ReqState α`, a record of
  the observable response fields plus an abstract payload `α` standing for
  everything else a middleware or view may read or write.
* A Go function that may panic is embedded with `Except σ _`: the `.error s`
  branch is a panic unwinding with the state as it stood, the `.ok` branch a
  normal return.
* The RequestContext pool is observed through its operation counters.
* Machine integers (status codes, ports, durations) are `Int`; no arithmetic
  in the modelled fragment can overflow.
* Go string helpers (`strings.Split`, `strings.ToUpper`, `strconv.Atoi`) are
  re-expressed over `List Char` so that every definition reduces in the
  kernel.
-/

set_option autoImplicit false
set_option linter.dupNamespace false

namespace Atreugo

variable {α : Type}

/-- Go error value: `none` is the nil error, `some msg` a non-nil error. -/
abbrev GoError := Option String

/-- Observable state of a fasthttp RequestCtx as used by this repository:
response status code, response body, and an abstract payload `α` for all
other request/response data middlewares and views may touch. -/
structure ReqState (α : Type) where
  status : Int
  body : String
  user : α
deriving DecidableEq

/-- fasthttp's `ctx.Error(msg, statusCode)` as called at src/router.go:65 and
src/atreugo.go:108: resets the response body to `msg` and sets the status. -/
def ctxError (s : ReqState α) (msg : String) (code : Int) : ReqState α :=
  { s with status := code, body := msg }

/-- fasthttp's `StatusOK`. -/
def StatusOK : Int := 200

/-- fasthttp's `StatusInternalServerError`, used at src/router.go:57 and
src/atreugo.go:100. -/
def StatusInternalServerError : Int := 500

/-- Modelled from the spec: the `Middleware` type (its defining file is not
under src/; usage at src/router.go:73-80 and the spec data model). A function
over a RequestContext returning `(statusCode, error)`; it may mutate the
context and may panic (`.error` carries the state at the panic). -/
abbrev Middleware (α : Type) :=
  ReqState α → Except (ReqState α) (ReqState α × Int × GoError)

/-- Modelled from the spec: the `View` type (its defining file is not under
src/; usage at src/router.go:41, src/atreugo.go:87). A function over a
RequestContext returning `error`; it may mutate the context and may panic. -/
abbrev View (α : Type) := ReqState α → Except (ReqState α) (ReqState α × GoError)

/-- Modelled from the spec: the `Filters` type (its defining file is not under
src/). A pair of ordered middleware sequences attached to one route
registration. -/
structure Filters (α : Type) where
  Before : List (Middleware α)
  After : List (Middleware α)

/-- `emptyFilters` from src/router.go:14. -/
def emptyFilters : Filters α := ⟨[], []⟩

/-- The RequestContext pool, observed through its operation counters: how many
acquisitions and how many releases have happened. -/
structure Pool where
  acquires : Nat
  releases : Nat
deriving DecidableEq

/-- Modelled from the spec: `acquireRequestCtx` (its defining file is not
under src/). Binds a pooled context object to the raw handle; acquisition
cannot fail and the pool grows as needed, so the observable effect is one
more acquisition. -/
def acquireRequestCtx (p : Pool) : Pool :=
  { p with acquires := p.acquires + 1 }

/-- Modelled from the spec: `releaseRequestCtx` (its defining file is not
under src/). Clears the binding and returns the object to the pool; the
observable effect is one more release. -/
def releaseRequestCtx (p : Pool) : Pool :=
  { p with releases := p.releases + 1 }

/-- Modelled from the spec: the Middleware Chain Executor `execMiddlewares`
(its defining file is not under src/; called at src/router.go:55,59 and
src/atreugo.go:98,102). Runs each middleware in order; at the first non-nil
error it stops and that middleware's `(statusCode, error)` pair is the
result; if every middleware returns a nil error the result is `(0, none)`.
A panic in a middleware unwinds through the executor. -/
def execMiddlewares (s : ReqState α) :
    List (Middleware α) → Except (ReqState α) (ReqState α × Int × GoError)
  | [] => .ok (s, 0, none)
  | m :: ms =>
    match m s with
    | .error s1 => .error s1
    | .ok (s1, code, some e) => .ok (s1, code, some e)
    | .ok (s1, _, none) => execMiddlewares s1 ms

/-- The stage sequencing shared by `Router.handler` (src/router.go:52-61) and
`Atreugo.handler` (src/atreugo.go:95-104): run the before-chain; on nil error
run the view; a view error forces status `StatusInternalServerError`;
otherwise run the after-chain. The result is the final `(statusCode, error)`
pair together with the context state; `.error` is a panic unwinding. -/
def runStages (before after : List (Middleware α)) (viewFn : View α)
    (s0 : ReqState α) : Except (ReqState α) (ReqState α × Int × GoError) :=
  match execMiddlewares s0 before with
  | .error s => .error s
  | .ok (s1, code, err) =>
    match err with
    | some e => .ok (s1, code, some e)
    | none =>
      match viewFn s1 with
      | .error s => .error s
      | .ok (s2, verr) =>
        match verr with
        | some e => .ok (s2, StatusInternalServerError, some e)
        | none => execMiddlewares s2 after

/-- The request-handler closure built by `Router.handler` (src/router.go:45-69)
and `Atreugo.handler` (src/atreugo.go:88-112): acquire a RequestContext, run
the stages, and when the final error is non-nil log it (third component of
the result) and write it with `ctxError`; finally release the context. The
release at src/router.go:68 / src/atreugo.go:111 is the last statement of the
function body and is not deferred, so a panic (`.error`) unwinds past it with
the pool still holding the acquisition. The debug log at entry has no
observable effect on the response or the pool and is elided. -/
def dispatch (before after : List (Middleware α)) (viewFn : View α)
    (p : Pool) (s0 : ReqState α) :
    Except (Pool × ReqState α) (Pool × ReqState α × GoError) :=
  let p1 := acquireRequestCtx p
  match runStages before after viewFn s0 with
  | .error s => .error (p1, s)
  | .ok (s, code, err) =>
    match err with
    | some e => .ok (releaseRequestCtx p1, ctxError s e code, some e)
    | none => .ok (releaseRequestCtx p1, s, none)

/-- A fasthttp `RequestHandler` in this embedding: pool and request state in,
pool, final state and logged error out, or a panic unwinding with pool and
state. -/
abbrev RequestHandler (α : Type) :=
  Pool → ReqState α → Except (Pool × ReqState α) (Pool × ReqState α × GoError)

/-- What a route registration stores in the routing table: either the plain
dispatcher closure, or the dispatcher wrapped by the external engine's
`fasthttp.TimeoutHandler` / `fasthttp.TimeoutWithCodeHandler`
(src/router.go:122,148), recorded by the arguments the repository passes to
the wrapper (the duration in nanoseconds, the message, the status code). The
wrapper itself is external engine code and its request-time behavior is not
part of this embedding. -/
inductive RegisteredHandler (α : Type)
  | plain (h : RequestHandler α)
  | timeout (h : RequestHandler α) (timeoutNanos : Int) (msg : String)
  | timeoutWithCode (h : RequestHandler α) (timeoutNanos : Int) (msg : String)
      (code : Int)

/-- One entry of the external router's table: the immutable tuple
`(method, pathPattern, compiledHandler)`. -/
structure Route (α : Type) where
  method : String
  url : String
  handler : RegisteredHandler α

/-- Go `Char`-level upper-casing: `strings.ToUpper` restricted to the ASCII
range (HTTP method tokens are ASCII, and `Char.toUpper` upcases exactly the
ASCII letters, agreeing with Go there). -/
def goToUpper (s : String) : String := ⟨s.data.map Char.toUpper⟩

/-- The panic message of `Router.addRoute` (src/router.go:35) and
`Atreugo.Path` (src/atreugo.go:211); the source wraps the method in single
quotes, elided here. -/
def methodPanicMsg (httpMethod : String) : String :=
  "The http method " ++ httpMethod ++ " must be in uppercase"

/-- The `Router` type (its defining file is not under src/): the router-wide
middleware lists mutated by `UseBefore`/`UseAfter` (src/router.go:73-80) and
the external routing table reached through `r.router.Handle`, modelled as the
list of registered routes. -/
structure Router (α : Type) where
  beforeMiddlewares : List (Middleware α)
  afterMiddlewares : List (Middleware α)
  routes : List (Route α)

/-- `Router.handler` (src/router.go:41-44): the effective before-chain is the
router-wide before list followed by the filters' Before list, the effective
after-chain is the filters' After list followed by the router-wide after
list, both computed when the route is registered; the returned closure is the
dispatcher over those chains. Go's `append` is given value semantics here,
which is adequate wherever the chains' contents over time are not at issue;
the slice-level model `RouterS` below makes append's backing-array reuse
explicit and governs the snapshot question. -/
def Router.handler (r : Router α) (viewFn : View α) (filters : Filters α) :
    RequestHandler α :=
  dispatch (r.beforeMiddlewares ++ filters.Before)
    (filters.After ++ r.afterMiddlewares) viewFn

/-- `Router.addRoute` (src/router.go:33-39): panics (`.error`) when the method
is not its own upper-casing, otherwise registers the handler with the
external router, modelled as appending the route. -/
def Router.addRoute (r : Router α) (httpMethod url : String)
    (h : RegisteredHandler α) : Except String (Router α) :=
  if httpMethod ≠ goToUpper httpMethod then
    .error (methodPanicMsg httpMethod)
  else
    .ok { r with routes := r.routes ++ [⟨httpMethod, url, h⟩] }

/-- `Router.PathWithFilters` (src/router.go:97-99). -/
def Router.PathWithFilters (r : Router α) (httpMethod url : String)
    (viewFn : View α) (filters : Filters α) : Except String (Router α) :=
  r.addRoute httpMethod url (.plain (r.handler viewFn filters))

/-- `Router.Path` (src/router.go:87-89). -/
def Router.Path (r : Router α) (httpMethod url : String) (viewFn : View α) :
    Except String (Router α) :=
  r.PathWithFilters httpMethod url viewFn emptyFilters

/-- `Router.TimeoutPathWithFilters` (src/router.go:119-123). -/
def Router.TimeoutPathWithFilters (r : Router α) (httpMethod url : String)
    (viewFn : View α) (filters : Filters α) (timeoutNanos : Int)
    (msg : String) : Except String (Router α) :=
  r.addRoute httpMethod url (.timeout (r.handler viewFn filters) timeoutNanos msg)

/-- `Router.TimeoutPath` (src/router.go:108-110). -/
def Router.TimeoutPath (r : Router α) (httpMethod url : String)
    (viewFn : View α) (timeoutNanos : Int) (msg : String) :
    Except String (Router α) :=
  r.TimeoutPathWithFilters httpMethod url viewFn emptyFilters timeoutNanos msg

/-- `Router.TimeoutWithCodePathWithFilters` (src/router.go:145-149). -/
def Router.TimeoutWithCodePathWithFilters (r : Router α)
    (httpMethod url : String) (viewFn : View α) (filters : Filters α)
    (timeoutNanos : Int) (msg : String) (statusCode : Int) :
    Except String (Router α) :=
  r.addRoute httpMethod url
    (.timeoutWithCode (r.handler viewFn filters) timeoutNanos msg statusCode)

/-- `Router.TimeoutWithCodePath` (src/router.go:132-135). -/
def Router.TimeoutWithCodePath (r : Router α) (httpMethod url : String)
    (viewFn : View α) (timeoutNanos : Int) (msg : String) (statusCode : Int) :
    Except String (Router α) :=
  r.TimeoutWithCodePathWithFilters httpMethod url viewFn emptyFilters
    timeoutNanos msg statusCode

/-- `Router.UseBefore` (src/router.go:73-75). -/
def Router.UseBefore (r : Router α) (fns : List (Middleware α)) : Router α :=
  { r with beforeMiddlewares := r.beforeMiddlewares ++ fns }

/-- `Router.UseAfter` (src/router.go:78-80). -/
def Router.UseAfter (r : Router α) (fns : List (Middleware α)) : Router α :=
  { r with afterMiddlewares := r.afterMiddlewares ++ fns }

/-- The server `Config` (its defining file is not under src/): the fields of
the configuration surface that src/atreugo.go reads or writes. The engine
sub-configuration, handler slots and log name are plumbing with no bearing on
the modelled claims and are elided. -/
structure Config where
  Host : String
  Port : Int
  TLSEnable : Bool
  CertFile : String
  CertKey : String
  LogLevel : String
  Compress : Bool
  GracefulShutdown : Bool
deriving DecidableEq

/-- The `Atreugo` server type (its defining file is not under src/): the
process-wide middleware lists, the routing table reached through
`s.router.Handle`, the configuration and the recorded listen address. -/
structure Atreugo (α : Type) where
  beforeMiddlewares : List (Middleware α)
  afterMiddlewares : List (Middleware α)
  routes : List (Route α)
  cfg : Config
  lnAddr : String

/-- `Atreugo.handler` (src/atreugo.go:87-113): the dispatcher over the
process-wide before and after lists (no per-route filters on this type). -/
def Atreugo.handler (s : Atreugo α) (viewFn : View α) : RequestHandler α :=
  dispatch s.beforeMiddlewares s.afterMiddlewares viewFn

/-- `Atreugo.Path` (src/atreugo.go:209-215): its own inline upper-case check,
then registration with the external router. -/
def Atreugo.Path (s : Atreugo α) (httpMethod url : String) (viewFn : View α) :
    Except String (Atreugo α) :=
  if httpMethod ≠ goToUpper httpMethod then
    .error (methodPanicMsg httpMethod)
  else
    .ok { s with
          routes := s.routes ++ [⟨httpMethod, url, .plain (s.handler viewFn)⟩] }

/-- `Atreugo.TimeoutPath` (src/atreugo.go:220-227): inline upper-case check,
then registration of the `fasthttp.TimeoutHandler`-wrapped dispatcher. -/
def Atreugo.TimeoutPath (s : Atreugo α) (httpMethod url : String)
    (viewFn : View α) (timeoutNanos : Int) (msg : String) :
    Except String (Atreugo α) :=
  if httpMethod ≠ goToUpper httpMethod then
    .error (methodPanicMsg httpMethod)
  else
    .ok { s with
          routes := s.routes ++
            [⟨httpMethod, url, .timeout (s.handler viewFn) timeoutNanos msg⟩] }

/-- The view built by `Atreugo.NetHTTPPath` (src/atreugo.go:247-250): run the
adapted net/http handler against the context and return a nil error. The
net/http handler is an external state transformer over the context. -/
def NetHTTPView (nh : ReqState α → ReqState α) : View α :=
  fun s => .ok (nh s, none)

/-- `Atreugo.NetHTTPPath` (src/atreugo.go:244-253): registers the adapted
handler directly with the external router; there is no method-case check on
this path, so registration cannot fault and the function totally returns the
extended server. -/
def Atreugo.NetHTTPPath (s : Atreugo α) (httpMethod url : String)
    (nh : ReqState α → ReqState α) : Atreugo α :=
  { s with
    routes := s.routes ++
      [⟨httpMethod, url, .plain (s.handler (NetHTTPView nh))⟩] }

/-- `Atreugo.UseBefore` (src/atreugo.go:256-258). -/
def Atreugo.UseBefore (s : Atreugo α) (fns : List (Middleware α)) : Atreugo α :=
  { s with beforeMiddlewares := s.beforeMiddlewares ++ fns }

/-- `Atreugo.UseAfter` (src/atreugo.go:261-263). -/
def Atreugo.UseAfter (s : Atreugo α) (fns : List (Middleware α)) : Atreugo α :=
  { s with afterMiddlewares := s.afterMiddlewares ++ fns }

/-- Go `strings.Split(addr, ":")` at the character level: splits into the
maximal colon-free groups, keeping empty groups; on the empty string the
result is one empty group, as in Go. -/
def splitCols : List Char → List (List Char)
  | [] => [[]]
  | c :: cs =>
    if c = ':' then [] :: splitCols cs
    else
      match splitCols cs with
      | [] => [[c]]
      | g :: gs => (c :: g) :: gs

/-- Decimal value of a digit character, `none` for a non-digit. -/
def digitVal (c : Char) : Option Nat :=
  if '0' ≤ c ∧ c ≤ '9' then some (c.toNat - '0'.toNat) else none

/-- Value of a non-empty all-digit character list, `none` otherwise. -/
def natOfDigits : List Char → Option Nat
  | [] => none
  | ds =>
    ds.foldl
      (fun acc c =>
        match acc, digitVal c with
        | some a, some d => some (a * 10 + d)
        | _, _ => none)
      (some 0)

/-- Go `strconv.Atoi` with the error discarded, as at src/atreugo.go:133:
optional sign followed by decimal digits; any parse failure leaves 0 (the
out-of-range clamping of Atoi cannot trigger on the modelled inputs). -/
def atoiOrZero (s : String) : Int :=
  match s.data with
  | '+' :: ds => ((natOfDigits ds).getD 0 : Nat)
  | '-' :: ds => -((natOfDigits ds).getD 0 : Nat)
  | ds => ((natOfDigits ds).getD 0 : Nat)

/-- The configuration-reconciliation step of `Atreugo.Serve`
(src/atreugo.go:127-138): when the listener address differs from the recorded
one, split the address on every colon; `Host` becomes the first group, `Port`
the discarded-error Atoi of the second group when one exists and 0 otherwise,
and the recorded address is updated. Nothing else changes. -/
def Atreugo.serveUpdateAddr (s : Atreugo α) (addr : String) : Atreugo α :=
  if addr ≠ s.lnAddr then
    let sAddr := splitCols addr.data
    let host : String := ⟨sAddr.headD []⟩
    let port : Int :=
      match sAddr with
      | _ :: p :: _ => atoiOrZero ⟨p⟩
      | _ => 0
    { s with cfg := { s.cfg with Host := host, Port := port }, lnAddr := addr }
  else s

/-- The host part of a listener address in the sense of the spec sentence
about reconciling the bound address: the text before the last colon, with one
enclosing pair of square brackets stripped — the reading the standard
host/port splitting produces, e.g. host part of a bracketed IPv6
`host:port` address. Spec-side reference definition, written from the spec
words for comparison with `Atreugo.serveUpdateAddr`. -/
def specHostPart (addr : String) : String :=
  match splitCols addr.data with
  | [] => addr
  | [_] => addr
  | parts =>
    let host := (parts.dropLast.map (fun g => (⟨g⟩ : String))).foldr
      (fun g acc => if acc = "" then g else g ++ ":" ++ acc) ""
    match host.data with
    | '[' :: rest =>
      if rest.getLast? = some ']' then ⟨rest.dropLast⟩ else host
    | _ => host

/-- The numeric port part of a listener address in the sense of the spec: the
decimal value of the text after the last colon, when the address has one.
Spec-side reference definition for comparison with
`Atreugo.serveUpdateAddr`. -/
def specPortPart (addr : String) : Int :=
  match splitCols addr.data with
  | [] => 0
  | [_] => 0
  | parts => atoiOrZero ⟨parts.getLastD []⟩

/-- Concrete middleware for witnesses: succeeds with a nil error. -/
def mwOk : Middleware Unit := fun s => .ok (s, 0, none)

/-- Concrete middleware for witnesses: fails with status 403, mirroring the
repository test table (src/atreugo_test.go:60-62). -/
def mwErr403 : Middleware Unit := fun s => .ok (s, 403, some "Bad request")

/-- Concrete view for witnesses: succeeds. -/
def viewOk : View Unit := fun s => .ok (s, none)

/-- Concrete view for witnesses: returns a non-nil error. -/
def viewBoom : View Unit := fun s => .ok (s, some "boom")

/-- Concrete view for witnesses: panics. -/
def viewPanics : View Unit := fun s => .error s

/-- Concrete initial context for witnesses: fasthttp default status, empty
body. -/
def ctx0 : ReqState Unit := { status := StatusOK, body := "", user := () }

/-- Concrete fresh pool for witnesses. -/
def pool0 : Pool := { acquires := 0, releases := 0 }

/-- Concrete router for witnesses, with one router-wide middleware on each
side. -/
def router0 : Router Unit :=
  { beforeMiddlewares := [mwOk], afterMiddlewares := [mwOk], routes := [] }

/-- Concrete filters for witnesses. -/
def filters0 : Filters Unit := { Before := [mwErr403], After := [mwOk] }

/-- Concrete router for witnesses: `router0` after registering `GET /` with
no filters. -/
def router0get : Router Unit :=
  { router0 with
    routes := router0.routes ++
      [⟨"GET", "/", .plain (router0.handler viewOk emptyFilters)⟩] }

/-- Concrete configuration for witnesses. -/
def cfg0 : Config :=
  { Host := "0.0.0.0", Port := 8000, TLSEnable := false, CertFile := "",
    CertKey := "", LogLevel := "info", Compress := false,
    GracefulShutdown := false }

/-- Concrete server for witnesses, with a recorded listen address that
differs from the addresses fed to `serveUpdateAddr`. -/
def atreugo0 : Atreugo Unit :=
  { beforeMiddlewares := [], afterMiddlewares := [], routes := [], cfg := cfg0,
    lnAddr := "0.0.0.0:8000" }

/-! ## Go slice semantics for the registration data flow

The value-level `Router` above treats the two `append` calls of
src/router.go:42-43 as pure concatenation. Go's `append`, however, writes the
new elements into the destination slice's backing array whenever its spare
capacity suffices, so the chain slice captured by a registered route can
alias the router-wide list's array and be mutated by a later registration or
`UseBefore`. The following refinement makes slice headers (array id, length,
capacity) and the store of backing arrays explicit. -/

/-- A Go slice header: backing-array id, length and capacity. -/
structure Slice where
  arr : Nat
  len : Nat
  cap : Nat
deriving DecidableEq

/-- The store of slice backing arrays: the contents of each array id (the
list's length is the array's capacity) and the next fresh id. -/
structure GoHeap (v : Type) where
  arrays : Nat → List v
  nextId : Nat

variable {v : Type}

/-- The elements a slice holds: the first `len` entries of its backing
array. -/
def sliceList (h : GoHeap v) (s : Slice) : List v :=
  (h.arrays s.arr).take s.len

/-- Well-formedness of a slice against a heap: length within capacity, the
backing array as long as the capacity, the array id allocated. -/
abbrev SliceWF (h : GoHeap v) (s : Slice) : Prop :=
  s.len ≤ s.cap ∧ (h.arrays s.arr).length = s.cap ∧ s.arr < h.nextId

/-- A composite slice literal such as `[]Middleware{...}`: a fresh array
holding exactly the elements, length equal to capacity. -/
def goSliceLit (h : GoHeap v) (xs : List v) : GoHeap v × Slice :=
  ({ arrays := fun i => if i = h.nextId then xs else h.arrays i,
     nextId := h.nextId + 1 },
   { arr := h.nextId, len := xs.length, cap := xs.length })

/-- Go's `append(s, xs...)` per the language specification: when the summed
length fits the capacity, the elements are written into the backing array in
place and the returned slice shares it; otherwise a fresh array holds the old
elements followed by the new ones, its capacity `grow s.cap n` being
implementation-specific (any `grow` with `n ≤ grow c n` is a valid runtime);
the padding up to the new capacity holds the zero value `dflt` and is never
exposed through a slice length. -/
def goAppend (grow : Nat → Nat → Nat) (dflt : v) (h : GoHeap v) (s : Slice)
    (xs : List v) : GoHeap v × Slice :=
  if s.len + xs.length ≤ s.cap then
    ({ h with
        arrays := fun i =>
          if i = s.arr then
            (h.arrays s.arr).take s.len ++ xs ++
              (h.arrays s.arr).drop (s.len + xs.length)
          else h.arrays i },
      { s with len := s.len + xs.length })
  else
    ({ arrays := fun i =>
          if i = h.nextId then
            (h.arrays s.arr).take s.len ++ xs ++
              List.replicate (grow s.cap (s.len + xs.length) -
                (s.len + xs.length)) dflt
          else h.arrays i,
        nextId := h.nextId + 1 },
      { arr := h.nextId, len := s.len + xs.length,
        cap := grow s.cap (s.len + xs.length) })

/-- A registered route in the slice-level model: the dispatcher closure of
src/router.go:45-69 captures the two chain slices computed at
src/router.go:42-43 and the view; the middlewares themselves are read from
the heap when a request is handled. -/
structure RouteS (α : Type) where
  method : String
  url : String
  before : Slice
  after : Slice
  viewFn : View α

/-- The `Router` at slice level: the router-wide middleware lists are slices
into the heap, refining `Router` for the registration data flow of
src/router.go:41-44,73-80,97-99. -/
structure RouterS (α : Type) where
  beforeMiddlewares : Slice
  afterMiddlewares : Slice
  routes : List (RouteS α)

/-- The request handler of a slice-level route at heap `h`: the dispatcher
(src/router.go:45-69) over the chains its captured slices hold at request
time. -/
def RouteS.handlerAt (h : GoHeap (Middleware α)) (ρ : RouteS α) :
    RequestHandler α :=
  dispatch (sliceList h ρ.before) (sliceList h ρ.after) ρ.viewFn

/-- `Router.PathWithFilters` (src/router.go:41-44,97-99) at slice level. The
filters' After slice is an append destination, so it is allocated as the
composite literal every caller builds (length equal to capacity); the
filters' Before slice is only ever read, so its contents are passed as a
list. Then, as at src/router.go:42-43, the before-chain is
`append(r.beforeMiddlewares, filters.Before...)` and the after-chain
`append(filters.After, r.afterMiddlewares...)`; the route captures the two
resulting slices. On the method-case panic the heap is discarded, as no
caller of the aborted registration observes it. -/
def RouterS.PathWithFiltersS (grow : Nat → Nat → Nat) (dflt : Middleware α)
    (h : GoHeap (Middleware α)) (r : RouterS α) (httpMethod url : String)
    (viewFn : View α) (fBefore fAfter : List (Middleware α)) :
    Except String (GoHeap (Middleware α) × RouterS α) :=
  let g1 := goSliceLit h fAfter
  let g2 := goAppend grow dflt g1.1 r.beforeMiddlewares fBefore
  let g3 := goAppend grow dflt g2.1 g1.2 (sliceList g2.1 r.afterMiddlewares)
  if httpMethod ≠ goToUpper httpMethod then
    .error (methodPanicMsg httpMethod)
  else
    .ok (g3.1,
      { r with routes := r.routes ++ [⟨httpMethod, url, g2.2, g3.2, viewFn⟩] })

/-- `Router.UseBefore` (src/router.go:73-75) at slice level:
`r.beforeMiddlewares = append(r.beforeMiddlewares, fns...)`. -/
def RouterS.UseBeforeS (grow : Nat → Nat → Nat) (dflt : Middleware α)
    (h : GoHeap (Middleware α)) (r : RouterS α) (fns : List (Middleware α)) :
    GoHeap (Middleware α) × RouterS α :=
  ((goAppend grow dflt h r.beforeMiddlewares fns).1,
    { r with beforeMiddlewares := (goAppend grow dflt h r.beforeMiddlewares fns).2 })

/-- Doubling growth: the reallocated capacity is the doubled old capacity,
or the needed length when larger — the schedule the Go runtime uses for
small slices (the language specification leaves the choice open). -/
def growGo (c n : Nat) : Nat := max n (2 * c)

/-- The before-filter of route A in the aliasing scenario. -/
def mwA : Middleware Unit := fun s => .ok (s, 401, some "routeA filter")

/-- The before-filter of route B in the aliasing scenario. -/
def mwB : Middleware Unit := fun s => .ok (s, 402, some "routeB filter")

/-- The zero value of the middleware function type (a nil Go function, which
faults when called); used only as backing-array padding beyond a slice's
length. -/
def mwNil : Middleware Unit := fun s => .error s

/-- Initial heap of the aliasing scenario: no live arrays. -/
def heapA0 : GoHeap (Middleware Unit) := { arrays := fun _ => [], nextId := 1 }

/-- Fresh slice-level router: nil middleware slices. -/
def routerA0 : RouterS Unit :=
  { beforeMiddlewares := ⟨0, 0, 0⟩, afterMiddlewares := ⟨0, 0, 0⟩,
    routes := [] }

/-- Fallback route for list lookups in the scenario; never actually taken. -/
def routeDflt : RouteS Unit :=
  { method := "", url := "", before := ⟨0, 0, 0⟩, after := ⟨0, 0, 0⟩,
    viewFn := viewOk }

/-- One `UseBefore` step of the scenario. -/
def useStep (st : GoHeap (Middleware Unit) × RouterS Unit)
    (fns : List (Middleware Unit)) : GoHeap (Middleware Unit) × RouterS Unit :=
  RouterS.UseBeforeS growGo mwNil st.1 st.2 fns

/-- One registration step of the scenario; every registration in the
scenario uses an upper-case method and succeeds, so the fallback is never
taken. -/
def regStep (st : GoHeap (Middleware Unit) × RouterS Unit) (mth u : String)
    (fb : List (Middleware Unit)) : GoHeap (Middleware Unit) × RouterS Unit :=
  (RouterS.PathWithFiltersS growGo mwNil st.1 st.2 mth u viewOk fb
    []).toOption.getD st

/-- Scenario state after three one-middleware `UseBefore` calls: under
doubling growth the router-wide before slice has length 3 and capacity 4 —
one spare slot. -/
def stateU3 : GoHeap (Middleware Unit) × RouterS Unit :=
  useStep (useStep (useStep (heapA0, routerA0) [mwOk]) [mwOk]) [mwOk]

/-- Scenario state after registering route A (`GET /a`, before-filter
`mwA`): the append fits the spare slot and writes `mwA` into the shared
array. -/
def stateRegA : GoHeap (Middleware Unit) × RouterS Unit :=
  regStep stateU3 "GET" "/a" [mwA]

/-- Scenario state after additionally registering route B (`GET /b`,
before-filter `mwB`): the append writes `mwB` into the same shared slot. -/
def stateRegB : GoHeap (Middleware Unit) × RouterS Unit :=
  regStep stateRegA "GET" "/b" [mwB]

/-- Route A as registered in the scenario. -/
def routeA : RouteS Unit := stateRegB.2.routes.headD routeDflt

/-! ## Executor and dispatcher lemmas -/

theorem execMiddlewares_nil (s : ReqState α) :
    execMiddlewares s ([] : List (Middleware α)) = .ok (s, 0, none) := rfl

theorem execMiddlewares_cons (s : ReqState α) (m : Middleware α)
    (ms : List (Middleware α)) :
    execMiddlewares s (m :: ms) =
      match m s with
      | .error s1 => .error s1
      | .ok (s1, code, some e) => .ok (s1, code, some e)
      | .ok (s1, _, none) => execMiddlewares s1 ms := rfl

/-- Running a chain whose prefix fully succeeds continues from the state the
prefix produced. -/
theorem execMiddlewares_append_of_ok_none (pre rest : List (Middleware α))
    (s0 s1 : ReqState α) (c : Int)
    (h : execMiddlewares s0 pre = .ok (s1, c, none)) :
    execMiddlewares s0 (pre ++ rest) = execMiddlewares s1 rest := by
  induction pre generalizing s0 with
  | nil =>
    rw [execMiddlewares_nil] at h
    obtain ⟨rfl, -, -⟩ := by simpa using h
    rfl
  | cons m ms ih =>
    rw [execMiddlewares_cons] at h
    rw [List.cons_append, execMiddlewares_cons]
    cases hm : m s0 with
    | error s => rw [hm] at h; exact absurd h (by simp)
    | ok v =>
      obtain ⟨s2, code, err⟩ := v
      rw [hm] at h
      cases err with
      | some e => exact absurd h (by simp)
      | none => exact ih s2 h

/-- The first middleware to return a non-nil error ends the chain with its
pair; the middlewares after it contribute nothing. -/
theorem execMiddlewares_first_error (pre post : List (Middleware α))
    (m : Middleware α) (s0 s1 s2 : ReqState α) (c code : Int) (e : String)
    (hpre : execMiddlewares s0 pre = .ok (s1, c, none))
    (hm : m s1 = .ok (s2, code, some e)) :
    execMiddlewares s0 (pre ++ m :: post) = .ok (s2, code, some e) := by
  rw [execMiddlewares_append_of_ok_none pre (m :: post) s0 s1 c hpre,
    execMiddlewares_cons, hm]

/-- A before-chain error is the result of the stages. -/
theorem runStages_of_before_error (before after : List (Middleware α))
    (viewFn : View α) (s0 s1 : ReqState α) (code : Int) (e : String)
    (h : execMiddlewares s0 before = .ok (s1, code, some e)) :
    runStages before after viewFn s0 = .ok (s1, code, some e) := by
  unfold runStages
  rw [h]

/-- After a clean before-chain, a view error forces the internal-server-error
status. -/
theorem runStages_of_view_error (before after : List (Middleware α))
    (viewFn : View α) (s0 s1 s2 : ReqState α) (c : Int) (e : String)
    (hb : execMiddlewares s0 before = .ok (s1, c, none))
    (hv : viewFn s1 = .ok (s2, some e)) :
    runStages before after viewFn s0 =
      .ok (s2, StatusInternalServerError, some e) := by
  unfold runStages
  rw [hb]
  dsimp only
  rw [hv]

/-- After a clean before-chain and view, the stages are the after-chain. -/
theorem runStages_of_success (before after : List (Middleware α))
    (viewFn : View α) (s0 s1 s2 : ReqState α) (c : Int)
    (hb : execMiddlewares s0 before = .ok (s1, c, none))
    (hv : viewFn s1 = .ok (s2, none)) :
    runStages before after viewFn s0 = execMiddlewares s2 after := by
  unfold runStages
  rw [hb]
  dsimp only
  rw [hv]

/-- When the stages end in a non-nil error, the dispatcher logs it, writes it
with `ctxError`, and releases the context. -/
theorem dispatch_of_runStages_ok (before after : List (Middleware α))
    (viewFn : View α) (p : Pool) (s0 s1 : ReqState α) (code : Int) (e : String)
    (h : runStages before after viewFn s0 = .ok (s1, code, some e)) :
    dispatch before after viewFn p s0 =
      .ok (releaseRequestCtx (acquireRequestCtx p), ctxError s1 e code,
        some e) := by
  unfold dispatch
  rw [h]

/-- Registration through `addRoute` succeeds exactly for methods equal to
their upper-casing. -/
theorem addRoute_ok_iff (r : Router α) (mth u : String)
    (h : RegisteredHandler α) :
    (∃ r2, r.addRoute mth u h = .ok r2) ↔ mth = goToUpper mth := by
  unfold Router.addRoute
  by_cases hc : mth = goToUpper mth
  · rw [if_neg (not_not_intro hc)]
    exact iff_of_true ⟨_, rfl⟩ hc
  · rw [if_pos hc]
    exact iff_of_false (by rintro ⟨r2, h2⟩; cases h2) hc

/-- A method differing from its upper-casing makes `addRoute` panic with the
method-case message. -/
theorem addRoute_error_of_ne (r : Router α) (mth u : String)
    (h : RegisteredHandler α) (hne : mth ≠ goToUpper mth) :
    r.addRoute mth u h = .error (methodPanicMsg mth) := by
  unfold Router.addRoute
  rw [if_pos hne]

/-- A successful `addRoute` appends exactly the given route. -/
theorem addRoute_ok_routes (r r2 : Router α) (mth u : String)
    (h : RegisteredHandler α) (hok : r.addRoute mth u h = .ok r2) :
    r2.routes = r.routes ++ [⟨mth, u, h⟩] := by
  unfold Router.addRoute at hok
  split at hok
  · cases hok
  · cases hok
    rfl

/-! ## Slice lemmas -/

theorem goSliceLit_fst_nextId (h : GoHeap v) (xs : List v) :
    (goSliceLit h xs).1.nextId = h.nextId + 1 := rfl

theorem goSliceLit_snd_arr (h : GoHeap v) (xs : List v) :
    (goSliceLit h xs).2.arr = h.nextId := rfl

/-- A fresh literal slice holds exactly its elements. -/
theorem sliceList_goSliceLit_self (h : GoHeap v) (xs : List v) :
    sliceList (goSliceLit h xs).1 (goSliceLit h xs).2 = xs := by
  simp [goSliceLit, sliceList]

theorem SliceWF_goSliceLit_self (h : GoHeap v) (xs : List v) :
    SliceWF (goSliceLit h xs).1 (goSliceLit h xs).2 := by
  refine ⟨le_refl _, ?_, ?_⟩ <;> simp [goSliceLit]

/-- Allocating a literal does not change what any allocated slice holds. -/
theorem sliceList_goSliceLit_frame (h : GoHeap v) (xs : List v) (t : Slice)
    (ht : t.arr < h.nextId) :
    sliceList (goSliceLit h xs).1 t = sliceList h t := by
  simp [goSliceLit, sliceList, Nat.ne_of_lt ht]

theorem SliceWF_goSliceLit_frame (h : GoHeap v) (xs : List v) (t : Slice)
    (hwf : SliceWF h t) : SliceWF (goSliceLit h xs).1 t := by
  obtain ⟨h1, h2, h3⟩ := hwf
  refine ⟨h1, ?_, ?_⟩
  · simpa [goSliceLit, Nat.ne_of_lt h3] using h2
  · simp only [goSliceLit]
    omega

/-- The resulting slice of an append holds the old elements followed by the
appended ones. -/
theorem sliceList_goAppend_self (grow : Nat → Nat → Nat) (dflt : v)
    (h : GoHeap v) (s : Slice) (xs : List v) (hwf : SliceWF h s) :
    sliceList (goAppend grow dflt h s xs).1 (goAppend grow dflt h s xs).2 =
      sliceList h s ++ xs := by
  obtain ⟨hlc, hlen, -⟩ := hwf
  have htk : ((h.arrays s.arr).take s.len ++ xs).length = s.len + xs.length := by
    simp [List.length_take, hlen]
    omega
  unfold goAppend sliceList
  by_cases hfit : s.len + xs.length ≤ s.cap
  · rw [if_pos hfit]
    dsimp only
    rw [if_pos rfl]
    exact List.take_left' htk
  · rw [if_neg hfit]
    dsimp only
    rw [if_pos rfl]
    exact List.take_left' htk

theorem SliceWF_goAppend_self (grow : Nat → Nat → Nat) (dflt : v)
    (h : GoHeap v) (s : Slice) (xs : List v) (hwf : SliceWF h s)
    (hgrow : ∀ c n, n ≤ grow c n) :
    SliceWF (goAppend grow dflt h s xs).1 (goAppend grow dflt h s xs).2 := by
  obtain ⟨hlc, hlen, hid⟩ := hwf
  unfold goAppend
  by_cases hfit : s.len + xs.length ≤ s.cap
  · rw [if_pos hfit]
    refine ⟨hfit, ?_, hid⟩
    dsimp only
    rw [if_pos rfl]
    simp [List.length_take, List.length_drop, hlen]
    omega
  · rw [if_neg hfit]
    refine ⟨hgrow _ _, ?_, Nat.lt_succ_self _⟩
    dsimp only
    rw [if_pos rfl]
    have hg := hgrow s.cap (s.len + xs.length)
    simp [List.length_take, List.length_replicate, hlen]
    omega

/-- An append leaves every other allocated slice's contents unchanged: a
distinct backing array is untouched, and an in-place write lands only beyond
the given length. -/
theorem sliceList_goAppend_frame (grow : Nat → Nat → Nat) (dflt : v)
    (h : GoHeap v) (s : Slice) (xs : List v) (t : Slice)
    (hwfs : SliceWF h s) (ht : t.arr < h.nextId)
    (hsep : t.arr = s.arr → t.len ≤ s.len) :
    sliceList (goAppend grow dflt h s xs).1 t = sliceList h t := by
  obtain ⟨hlc, hlen, hid⟩ := hwfs
  unfold goAppend sliceList
  by_cases hfit : s.len + xs.length ≤ s.cap
  · rw [if_pos hfit]
    dsimp only
    by_cases harr : t.arr = s.arr
    · have hts := hsep harr
      rw [if_pos harr, harr]
      calc ((h.arrays s.arr).take s.len ++ xs ++
              (h.arrays s.arr).drop (s.len + xs.length)).take t.len
          = ((h.arrays s.arr).take s.len ++ xs).take t.len :=
            List.take_append_of_le_length (by simp [List.length_take, hlen]; omega)
        _ = ((h.arrays s.arr).take s.len).take t.len :=
            List.take_append_of_le_length (by simp [List.length_take, hlen]; omega)
        _ = (h.arrays s.arr).take (min t.len s.len) := List.take_take _ _ _
        _ = (h.arrays s.arr).take t.len := by rw [Nat.min_eq_left hts]
    · rw [if_neg harr]
  · rw [if_neg hfit]
    dsimp only
    rw [if_neg (Nat.ne_of_lt ht)]

theorem SliceWF_goAppend_frame (grow : Nat → Nat → Nat) (dflt : v)
    (h : GoHeap v) (s : Slice) (xs : List v) (t : Slice)
    (hwfs : SliceWF h s) (hwft : SliceWF h t) :
    SliceWF (goAppend grow dflt h s xs).1 t := by
  obtain ⟨hlc, hlen, hid⟩ := hwfs
  obtain ⟨h1, h2, h3⟩ := hwft
  unfold goAppend
  by_cases hfit : s.len + xs.length ≤ s.cap
  · rw [if_pos hfit]
    refine ⟨h1, ?_, h3⟩
    dsimp only
    by_cases harr : t.arr = s.arr
    · have hcap : t.cap = s.cap := by rw [← h2, harr, hlen]
      rw [if_pos harr]
      simp [List.length_take, List.length_drop, hlen, hcap]
      omega
    · rw [if_neg harr]
      exact h2
  · rw [if_neg hfit]
    refine ⟨h1, ?_, ?_⟩
    · dsimp only
      rw [if_neg (Nat.ne_of_lt h3)]
      exact h2
    · dsimp only
      omega

/-- The appended slice's array is the old one (in place) or the fresh id. -/
theorem goAppend_arr (grow : Nat → Nat → Nat) (dflt : v) (h : GoHeap v)
    (s : Slice) (xs : List v) :
    ((goAppend grow dflt h s xs).2.arr = s.arr ∧
      (goAppend grow dflt h s xs).1.nextId = h.nextId) ∨
    ((goAppend grow dflt h s xs).2.arr = h.nextId ∧
      (goAppend grow dflt h s xs).1.nextId = h.nextId + 1) := by
  unfold goAppend
  by_cases hfit : s.len + xs.length ≤ s.cap
  · rw [if_pos hfit]
    exact .inl ⟨rfl, rfl⟩
  · rw [if_neg hfit]
    exact .inr ⟨rfl, rfl⟩

/-- The two chain slices computed by a registration (the literal allocation
and the two appends of src/router.go:42-43) hold, in the final heap, the
router-wide before list concatenated with the filters' Before elements, and
the filters' After elements concatenated with the router-wide after list, as
those lists stood before the registration. -/
theorem regChains_spec (grow : Nat → Nat → Nat) (dflt : Middleware α)
    (h : GoHeap (Middleware α)) (bS aS : Slice)
    (L B A : GoHeap (Middleware α) × Slice)
    (fBefore fAfter : List (Middleware α))
    (hgrow : ∀ c n, n ≤ grow c n)
    (hwfB : SliceWF h bS) (hwfA : SliceWF h aS)
    (hsep : aS.arr = bS.arr → aS.len ≤ bS.len)
    (hLd : L = goSliceLit h fAfter)
    (hBd : B = goAppend grow dflt L.1 bS fBefore)
    (hAd : A = goAppend grow dflt B.1 L.2 (sliceList B.1 aS)) :
    sliceList A.1 B.2 = sliceList h bS ++ fBefore ∧
    sliceList A.1 A.2 = fAfter ++ sliceList h aS := by
  have harrL : L.2.arr = h.nextId := by rw [hLd]; rfl
  have hnextL : L.1.nextId = h.nextId + 1 := by rw [hLd]; rfl
  have wfLb : SliceWF L.1 bS := by
    rw [hLd]; exact SliceWF_goSliceLit_frame h fAfter bS hwfB
  have wfLa : SliceWF L.1 aS := by
    rw [hLd]; exact SliceWF_goSliceLit_frame h fAfter aS hwfA
  have wfLL : SliceWF L.1 L.2 := by
    rw [hLd]; exact SliceWF_goSliceLit_self h fAfter
  have hLframe_b : sliceList L.1 bS = sliceList h bS := by
    rw [hLd]; exact sliceList_goSliceLit_frame h fAfter bS hwfB.2.2
  have hLframe_a : sliceList L.1 aS = sliceList h aS := by
    rw [hLd]; exact sliceList_goSliceLit_frame h fAfter aS hwfA.2.2
  have hLself : sliceList L.1 L.2 = fAfter := by
    rw [hLd]; exact sliceList_goSliceLit_self h fAfter
  have wfBB : SliceWF B.1 B.2 := by
    rw [hBd]; exact SliceWF_goAppend_self grow dflt L.1 bS fBefore wfLb hgrow
  have wfBL : SliceWF B.1 L.2 := by
    rw [hBd]; exact SliceWF_goAppend_frame grow dflt L.1 bS fBefore L.2 wfLb wfLL
  have hBself : sliceList B.1 B.2 = sliceList L.1 bS ++ fBefore := by
    rw [hBd]; exact sliceList_goAppend_self grow dflt L.1 bS fBefore wfLb
  have hBarr : B.2.arr ≠ L.2.arr := by
    rw [harrL]
    rcases goAppend_arr grow dflt L.1 bS fBefore with ⟨ha, -⟩ | ⟨ha, -⟩
    · rw [hBd, ha]
      exact Nat.ne_of_lt hwfB.2.2
    · rw [hBd, ha, hnextL]
      exact Nat.succ_ne_self h.nextId
  have hBframe_L : sliceList B.1 L.2 = sliceList L.1 L.2 := by
    rw [hBd]
    apply sliceList_goAppend_frame grow dflt L.1 bS fBefore L.2 wfLb
    · rw [harrL, hnextL]
      exact Nat.lt_succ_self _
    · intro hcon
      rw [harrL] at hcon
      exact absurd hcon.symm (Nat.ne_of_lt hwfB.2.2)
  have hBframe_a : sliceList B.1 aS = sliceList L.1 aS := by
    rw [hBd]
    apply sliceList_goAppend_frame grow dflt L.1 bS fBefore aS wfLb
    · rw [hnextL]
      exact Nat.lt_succ_of_lt hwfA.2.2
    · exact hsep
  have hAself : sliceList A.1 A.2 = sliceList B.1 L.2 ++ sliceList B.1 aS := by
    rw [hAd]
    exact sliceList_goAppend_self grow dflt B.1 L.2 (sliceList B.1 aS) wfBL
  have hAframe_B : sliceList A.1 B.2 = sliceList B.1 B.2 := by
    rw [hAd]
    apply sliceList_goAppend_frame grow dflt B.1 L.2 (sliceList B.1 aS) B.2 wfBL
    · exact wfBB.2.2
    · intro hcon
      exact absurd hcon hBarr
  constructor
  · rw [hAframe_B, hBself, hLframe_b]
  · rw [hAself, hBframe_L, hLself, hBframe_a, hLframe_a]

/-! ## Claim theorems -/

/-- C1: for every request and every before-middleware chain, if the
middleware at position i (here: after prefix `pre`, all of which return nil
errors) is the first to return a non-nil error, the dispatcher's result is
fully determined by the prefix and that middleware — the right-hand side
mentions neither `post` (the middlewares at positions greater than i), nor
the view, nor the after-chain, so none of them is ever invoked — and the
response is the error written with that middleware's returned
`(statusCode, error)` pair. This covers `Router.handler` and
`Atreugo.handler`, whose request handlers are `dispatch` applied to their
respective chains. -/
theorem before_chain_short_circuits (pre post after : List (Middleware α))
    (m : Middleware α) (viewFn : View α) (p : Pool) (s0 s1 s2 : ReqState α)
    (c code : Int) (e : String)
    (hpre : execMiddlewares s0 pre = .ok (s1, c, none))
    (hm : m s1 = .ok (s2, code, some e)) :
    dispatch (pre ++ m :: post) after viewFn p s0 =
      .ok (releaseRequestCtx (acquireRequestCtx p), ctxError s2 e code,
        some e) :=
  dispatch_of_runStages_ok _ _ _ _ _ _ _ _
    (runStages_of_before_error _ _ _ _ _ _ _
      (execMiddlewares_first_error pre post m s0 s1 s2 c code e hpre hm))

/-- C1 witness: with one clean middleware, then the failing `mwErr403`, then
one more middleware, the response is the 403 error and the trailing
middleware, the view and the after-chain leave no trace. -/
theorem before_chain_short_circuits_witness :
    dispatch ([mwOk] ++ mwErr403 :: [mwOk]) [mwOk] viewOk pool0 ctx0 =
      .ok (releaseRequestCtx (acquireRequestCtx pool0),
        ctxError ctx0 "Bad request" 403, some "Bad request") :=
  before_chain_short_circuits [mwOk] [mwOk] [mwOk] mwErr403 viewOk pool0
    ctx0 ctx0 ctx0 0 403 "Bad request" rfl rfl

/-- C2: for every request whose before-chain fully succeeds and whose view
returns a non-nil error, the dispatcher's result does not mention the
after-chain (it is never invoked) and the response is the view's error
written with status `StatusInternalServerError` (500), whatever `after`
is. -/
theorem view_error_skips_after_chain (before after : List (Middleware α))
    (viewFn : View α) (p : Pool) (s0 s1 s2 : ReqState α) (c : Int) (e : String)
    (hb : execMiddlewares s0 before = .ok (s1, c, none))
    (hv : viewFn s1 = .ok (s2, some e)) :
    dispatch before after viewFn p s0 =
      .ok (releaseRequestCtx (acquireRequestCtx p),
        ctxError s2 e StatusInternalServerError, some e) :=
  dispatch_of_runStages_ok _ _ _ _ _ _ _ _
    (runStages_of_view_error before after viewFn s0 s1 s2 c e hb hv)

/-- C2 witness: a failing view behind a clean before-chain yields the 500
response with the view's message even though an after-middleware is
registered. -/
theorem view_error_skips_after_chain_witness :
    dispatch [mwOk] [mwOk] viewBoom pool0 ctx0 =
      .ok (releaseRequestCtx (acquireRequestCtx pool0),
        ctxError ctx0 "boom" StatusInternalServerError, some "boom") :=
  view_error_skips_after_chain [mwOk] [mwOk] viewBoom pool0 ctx0 ctx0 ctx0 0
    "boom" rfl rfl

/-- C3: for every request whose before-chain and view succeed, the
after-chain is executed in registered order (the state threads from the view
through the clean prefix `pre` into `m`); when the after-middleware `m` is
the first to return a non-nil error, the result does not mention `post` (the
remaining after-middlewares are skipped) and that middleware's
`(statusCode, error)` pair becomes the final response status and error. -/
theorem after_chain_error_skips_rest (before pre post : List (Middleware α))
    (m : Middleware α) (viewFn : View α) (p : Pool)
    (s0 s1 s2 s3 s4 : ReqState α) (c c1 code : Int) (e : String)
    (hb : execMiddlewares s0 before = .ok (s1, c, none))
    (hv : viewFn s1 = .ok (s2, none))
    (hpre : execMiddlewares s2 pre = .ok (s3, c1, none))
    (hm : m s3 = .ok (s4, code, some e)) :
    dispatch before (pre ++ m :: post) viewFn p s0 =
      .ok (releaseRequestCtx (acquireRequestCtx p), ctxError s4 e code,
        some e) := by
  refine dispatch_of_runStages_ok _ _ _ _ _ _ _ _ ?_
  rw [runStages_of_success before (pre ++ m :: post) viewFn s0 s1 s2 c hb hv]
  exact execMiddlewares_first_error pre post m s2 s3 s4 c1 code e hpre hm

/-- C3 witness: after a clean before-chain and view, an after-chain of a
clean middleware, the failing `mwErr403` and one more middleware produces the
403 response determined by the failing middleware. -/
theorem after_chain_error_skips_rest_witness :
    dispatch [mwOk] ([mwOk] ++ mwErr403 :: [mwOk]) viewOk pool0 ctx0 =
      .ok (releaseRequestCtx (acquireRequestCtx pool0),
        ctxError ctx0 "Bad request" 403, some "Bad request") :=
  after_chain_error_skips_rest [mwOk] [mwOk] [mwOk] mwErr403 viewOk pool0
    ctx0 ctx0 ctx0 ctx0 ctx0 0 0 403 "Bad request" rfl rfl rfl rfl

/-- C4 fails as stated: `releaseRequestCtx` is the last statement of the
handler body (src/router.go:68, src/atreugo.go:111) and is not deferred, so
on the panic exit path it is not called. Concretely, with no middlewares and
a view that panics, the handler unwinds with one acquisition and zero
releases. -/
theorem release_skipped_on_panic_cex :
    dispatch ([] : List (Middleware Unit)) [] viewPanics pool0 ctx0 =
      .error ({ acquires := 1, releases := 0 }, ctx0) := rfl

/-- C4 (amended): on every non-panic exit path of the dispatcher — normal
return, before-middleware error, view error, after-middleware error —
`releaseRequestCtx` is called exactly once per acquisition (one acquisition
and one release are added to the pool); on a panic exit path the acquisition
happens but no release does. -/
theorem dispatch_release_discipline (before after : List (Middleware α))
    (viewFn : View α) (p : Pool) (s0 : ReqState α) :
    (∀ q s1 e, dispatch before after viewFn p s0 = .ok (q, s1, e) →
      q = { acquires := p.acquires + 1, releases := p.releases + 1 }) ∧
    (∀ q s1, dispatch before after viewFn p s0 = .error (q, s1) →
      q = { acquires := p.acquires + 1, releases := p.releases }) := by
  unfold dispatch
  cases h : runStages before after viewFn s0 with
  | error s =>
    refine ⟨fun q s1 e hq => absurd hq (by simp), fun q s1 hq => ?_⟩
    obtain ⟨rfl, -⟩ := by simpa using hq
    rfl
  | ok v =>
    obtain ⟨s1, code, err⟩ := v
    cases err with
    | some e =>
      refine ⟨fun q s2 e2 hq => ?_, fun q s2 hq => absurd hq (by simp)⟩
      obtain ⟨rfl, -, -⟩ := by simpa using hq
      rfl
    | none =>
      refine ⟨fun q s2 e2 hq => ?_, fun q s2 hq => absurd hq (by simp)⟩
      obtain ⟨rfl, -, -⟩ := by simpa using hq
      rfl

/-- C4 (amended) witness: a clean run from the fresh pool performs exactly
one acquisition and one release. -/
theorem dispatch_release_discipline_witness :
    ({ acquires := 1, releases := 1 } : Pool) =
      { acquires := pool0.acquires + 1, releases := pool0.releases + 1 } :=
  (dispatch_release_discipline [] [] viewOk pool0 ctx0).1
    { acquires := 1, releases := 1 } ctx0 none rfl

/-- C5 fails as stated: Go's `append` (src/router.go:42) reuses the
router-wide slice's spare backing-array capacity. After three one-middleware
`UseBefore` calls the router-wide before list has length 3 and capacity 4
under doubling reallocation; registering route A with before-filter `mwA`
writes `mwA` into the shared array's spare slot, and registering route B
with before-filter `mwB` overwrites that same slot. The chain the dispatcher
runs for route A therefore no longer equals the concatenation as the lists
stood at route A's registration: the captured slice then held `mwA` last and
now holds `mwB`, and the two request-time responses differ observably (401
with route A's message at registration, 402 with route B's message after
route B is registered). -/
theorem pathWithFilters_snapshot_cex :
    sliceList stateRegA.1 routeA.before = [mwOk, mwOk, mwOk, mwA] ∧
    sliceList stateRegB.1 routeA.before = [mwOk, mwOk, mwOk, mwB] ∧
    RouteS.handlerAt stateRegA.1 routeA pool0 ctx0 =
      .ok (releaseRequestCtx (acquireRequestCtx pool0),
        ctxError ctx0 "routeA filter" 401, some "routeA filter") ∧
    RouteS.handlerAt stateRegB.1 routeA pool0 ctx0 =
      .ok (releaseRequestCtx (acquireRequestCtx pool0),
        ctxError ctx0 "routeB filter" 402, some "routeB filter") ∧
    ctxError ctx0 "routeB filter" 402 ≠ ctxError ctx0 "routeA filter" 401 :=
  ⟨rfl, rfl, rfl, rfl, by decide⟩

/-- C5 (amended): at the moment a route is registered through
`PathWithFilters`, the captured before-chain holds exactly the router-wide
before list concatenated with filters.Before, and the captured after-chain
exactly filters.After concatenated with the router-wide after list, as those
lists stand at registration; the chains are only guaranteed to keep that
registration-time value until the next `append` that reuses the shared
backing array (a later registration or `UseBefore` with spare capacity
available may overwrite the before-chain's tail). -/
theorem pathWithFilters_chains_at_registration (grow : Nat → Nat → Nat)
    (dflt : Middleware α) (h h2 : GoHeap (Middleware α)) (r r2 : RouterS α)
    (mth u : String) (viewFn : View α) (fBefore fAfter : List (Middleware α))
    (hgrow : ∀ c n, n ≤ grow c n)
    (hwfB : SliceWF h r.beforeMiddlewares)
    (hwfA : SliceWF h r.afterMiddlewares)
    (hsep : r.afterMiddlewares.arr = r.beforeMiddlewares.arr →
      r.afterMiddlewares.len ≤ r.beforeMiddlewares.len)
    (hok : RouterS.PathWithFiltersS grow dflt h r mth u viewFn fBefore fAfter
      = .ok (h2, r2)) :
    ∃ ρ, r2.routes = r.routes ++ [ρ] ∧
      sliceList h2 ρ.before = sliceList h r.beforeMiddlewares ++ fBefore ∧
      sliceList h2 ρ.after = fAfter ++ sliceList h r.afterMiddlewares := by
  simp only [RouterS.PathWithFiltersS] at hok
  split at hok
  · cases hok
  · injection hok with hpair
    injection hpair with hh hr
    subst hh
    subst hr
    refine ⟨_, rfl, ?_, ?_⟩
    · exact (regChains_spec grow dflt h r.beforeMiddlewares r.afterMiddlewares
        _ _ _ fBefore fAfter hgrow hwfB hwfA hsep rfl rfl rfl).1
    · exact (regChains_spec grow dflt h r.beforeMiddlewares r.afterMiddlewares
        _ _ _ fBefore fAfter hgrow hwfB hwfA hsep rfl rfl rfl).2

/-- C5 (amended) witness: registering route A on the scenario state (length
3, capacity 4) appends one route whose chains read, in the resulting heap,
as the three router-wide middlewares followed by `mwA`, and as the empty
filters.After followed by the empty router-wide after list. -/
theorem pathWithFilters_chains_at_registration_witness :
    ∃ ρ, stateRegA.2.routes = stateU3.2.routes ++ [ρ] ∧
      sliceList stateRegA.1 ρ.before =
        sliceList stateU3.1 stateU3.2.beforeMiddlewares ++ [mwA] ∧
      sliceList stateRegA.1 ρ.after =
        [] ++ sliceList stateU3.1 stateU3.2.afterMiddlewares :=
  pathWithFilters_chains_at_registration growGo mwNil stateU3.1 stateRegA.1
    stateU3.2 stateRegA.2 "GET" "/a" viewOk [mwA] []
    (fun c n => Nat.le_max_left n (2 * c))
    ⟨by decide, by decide, by decide⟩ ⟨by decide, by decide, by decide⟩
    (fun hco => absurd hco (by decide)) rfl

/-- C6: for every request in which some stage produced a non-nil error (the
stages result in the pair `(code, some e)`), the dispatcher's response body
is exactly the error's message `e`, the response status is the resolved code
`code`, and the error is logged — the third component of the result is the
argument of the `log.Error` call at src/router.go:64 / src/atreugo.go:107. -/
theorem error_response_body_status_log (before after : List (Middleware α))
    (viewFn : View α) (p : Pool) (s0 s1 : ReqState α) (code : Int) (e : String)
    (h : runStages before after viewFn s0 = .ok (s1, code, some e)) :
    ∃ q s2, dispatch before after viewFn p s0 = .ok (q, s2, some e) ∧
      s2.body = e ∧ s2.status = code :=
  ⟨releaseRequestCtx (acquireRequestCtx p), ctxError s1 e code,
    dispatch_of_runStages_ok before after viewFn p s0 s1 code e h, rfl, rfl⟩

/-- C6 witness: the failing before-middleware `mwErr403` produces the body
"Bad request", status 403, and the logged error. -/
theorem error_response_body_status_log_witness :
    ∃ q s2, dispatch [mwErr403] [] viewOk pool0 ctx0 =
        .ok (q, s2, some "Bad request") ∧
      s2.body = "Bad request" ∧ s2.status = 403 :=
  error_response_body_status_log [mwErr403] [] viewOk pool0 ctx0 ctx0 403
    "Bad request" rfl

/-- C7: each of the four route-registration operations of the `Router` faults
at construction time exactly when the method differs from its upper-casing —
on a fault no route is registered (no updated router is produced, the result
being the panic), and for an upper-case method registration succeeds and
appends the route, whose stored handler does not depend on the method string,
so no method-case error can arise at request time. -/
theorem registration_method_case (r : Router α) (httpMethod url : String)
    (viewFn : View α) (f : Filters α) (t : Int) (msg : String) (code : Int) :
    ((∃ r2, r.Path httpMethod url viewFn = .ok r2) ↔
      httpMethod = goToUpper httpMethod) ∧
    ((∃ r2, r.PathWithFilters httpMethod url viewFn f = .ok r2) ↔
      httpMethod = goToUpper httpMethod) ∧
    ((∃ r2, r.TimeoutPath httpMethod url viewFn t msg = .ok r2) ↔
      httpMethod = goToUpper httpMethod) ∧
    ((∃ r2, r.TimeoutWithCodePath httpMethod url viewFn t msg code = .ok r2) ↔
      httpMethod = goToUpper httpMethod) ∧
    (httpMethod ≠ goToUpper httpMethod →
      r.Path httpMethod url viewFn = .error (methodPanicMsg httpMethod)) ∧
    (∀ r2, r.Path httpMethod url viewFn = .ok r2 →
      r2.routes = r.routes ++
        [⟨httpMethod, url, .plain (r.handler viewFn emptyFilters)⟩]) :=
  ⟨addRoute_ok_iff r httpMethod url _,
    addRoute_ok_iff r httpMethod url _,
    addRoute_ok_iff r httpMethod url _,
    addRoute_ok_iff r httpMethod url _,
    fun hne => addRoute_error_of_ne r httpMethod url _ hne,
    fun r2 h2 => addRoute_ok_routes r r2 httpMethod url _ h2⟩

/-- C7 witness: the lower-case method "get" faults on `Path` while "GET"
registers one route with the expected handler. -/
theorem registration_method_case_witness :
    router0.Path "get" "/" viewOk = .error (methodPanicMsg "get") ∧
    (∃ r2, router0.Path "GET" "/" viewOk = .ok r2) ∧
    router0get.routes = router0.routes ++
      [⟨"GET", "/", .plain (router0.handler viewOk emptyFilters)⟩] :=
  ⟨(registration_method_case router0 "get" "/" viewOk filters0 0 "" 0).2.2.2.2.1
      (by decide),
    ((registration_method_case router0 "GET" "/" viewOk filters0 0 "" 0).1).mpr
      (by decide),
    (registration_method_case router0 "GET" "/" viewOk filters0 0 "" 0).2.2.2.2.2
      router0get rfl⟩

/-- C8: evaluation at the failing input. For the listener address
`[::]:8000` — the form every default dual-stack TCP listener reports — the
reconciliation step of `Serve` sets `cfg.Host` to `[` and `cfg.Port` to 0,
while the host part and numeric port part of that address in the sense of the
spec are `::` and 8000. -/
theorem serve_addr_update_ipv6_eval :
    (atreugo0.serveUpdateAddr "[::]:8000").cfg.Host = "[" ∧
    (atreugo0.serveUpdateAddr "[::]:8000").cfg.Port = 0 ∧
    specHostPart "[::]:8000" = "::" ∧ specPortPart "[::]:8000" = 8000 := by
  decide

/-- C10: `NetHTTPPath` on the server type performs no method-case validation:
for every method string, including lower-case ones, it totally returns the
server with the route appended, whereas `Path` and `TimeoutPath` on the same
type fault with the method-case panic for any method differing from its
upper-casing. -/
theorem netHTTPPath_no_method_case_check (s : Atreugo α)
    (httpMethod url : String) (nh : ReqState α → ReqState α) (viewFn : View α)
    (t : Int) (msg : String) :
    (s.NetHTTPPath httpMethod url nh).routes = s.routes ++
      [⟨httpMethod, url, .plain (s.handler (NetHTTPView nh))⟩] ∧
    (httpMethod ≠ goToUpper httpMethod →
      s.Path httpMethod url viewFn = .error (methodPanicMsg httpMethod) ∧
      s.TimeoutPath httpMethod url viewFn t msg =
        .error (methodPanicMsg httpMethod)) := by
  refine ⟨rfl, fun hne => ⟨?_, ?_⟩⟩
  · simp only [Atreugo.Path, if_pos hne]
  · simp only [Atreugo.TimeoutPath, if_pos hne]

/-- C10 witness: with the lower-case method "get", `NetHTTPPath` registers
the route while `Path` and `TimeoutPath` fault. -/
theorem netHTTPPath_no_method_case_check_witness :
    (atreugo0.NetHTTPPath "get" "/" id).routes = atreugo0.routes ++
      [⟨"get", "/", .plain (atreugo0.handler (NetHTTPView id))⟩] ∧
    atreugo0.Path "get" "/" viewOk = .error (methodPanicMsg "get") ∧
    atreugo0.TimeoutPath "get" "/" viewOk 5 "timed out" =
      .error (methodPanicMsg "get") :=
  ⟨(netHTTPPath_no_method_case_check atreugo0 "get" "/" id viewOk 5
      "timed out").1,
    (netHTTPPath_no_method_case_check atreugo0 "get" "/" id viewOk 5
      "timed out").2 (by decide)⟩

end Atreugo
